import Mathlib

/-!
Shallow embedding of the SOPSC realtime server core (src/index.js):
the presence registry (activeSockets), the token resolver (getPushTokens),
the backoff push sender (sendPushWithRetry), and the four socket event
handlers (sendDirectMessage, sendGroupMessage, directMessageRead, joinGroup).
JavaScript objects keyed by user id are modelled as association lists,
JavaScript truthiness of optional strings is made explicit, and the side
effects of a handler are recorded as a trace of actions in program order.
-/

namespace SOPSC

/-- The presence registry: the JS object activeSockets mapping a userId to
its number of active sockets, modelled as an association list with unique
keys (a JS object cannot hold a key twice). -/
abbrev Registry := List (String × Nat)

/-- Property access activeSockets[u]: some count when the key is present,
none when absent (undefined in JS). -/
def lookupCount : Registry → String → Option Nat
  | [], _ => none
  | (k, v) :: rest, u => if k = u then some v else lookupCount rest u

/-- JS expression (v || d) on an optional number: undefined and 0 are falsy
and give the default d; any other number gives itself. -/
def jsOr : Option Nat → Nat → Nat
  | none, d => d
  | some 0, d => d
  | some (n + 1), _ => n + 1

/-- Assignment activeSockets[u] = c: replaces the value at key u, or appends
the key when absent. -/
def setEntry : Registry → String → Nat → Registry
  | [], u, c => [(u, c)]
  | (k, v) :: rest, u, c => if k = u then (u, c) :: rest else (k, v) :: setEntry rest u c

/-- Statement delete activeSockets[u]: removes the entry for key u. -/
def removeEntry : Registry → String → Registry
  | [], _ => []
  | (k, v) :: rest, u => if k = u then removeEntry rest u else (k, v) :: removeEntry rest u

/-- Connection handler, line 97: activeSockets[userId] = (activeSockets[userId] || 0) + 1. -/
def markOnline (r : Registry) (u : String) : Registry :=
  setEntry r u (jsOr (lookupCount r u) 0 + 1)

/-- Disconnect handler, lines 103-106: activeSockets[userId] =
(activeSockets[userId] || 1) - 1, and the entry is deleted when the result
is at most 0. -/
def markOffline (r : Registry) (u : String) : Registry :=
  let c := jsOr (lookupCount r u) 1 - 1
  if c = 0 then removeEntry r u else setEntry r u c

/-- The liveness query the router performs at line 121: the count
(activeSockets[u] || 0) is nonzero. -/
def isOnline (r : Registry) (u : String) : Bool :=
  jsOr (lookupCount r u) 0 != 0

/-- JS truthiness of an optional string: undefined and the empty string are
falsy, every other string is truthy. -/
def truthy : Option String → Bool
  | none => false
  | some s => if s = "" then false else true

/-- Registry invariant: every entry present in the registry carries a
strictly positive count. -/
def goodRegistry (r : Registry) : Prop := ∀ kv ∈ r, 0 < kv.2

/-- Apply a registry operation n times, oldest first. -/
def iterReg (f : Registry → Registry) : Nat → Registry → Registry
  | 0, r => r
  | n + 1, r => iterReg f n (f r)

/-- N markOnline calls followed by M markOffline calls for user u, starting
from the empty registry. -/
def runOnOff (n m : Nat) (u : String) : Registry :=
  iterReg (fun r => markOffline r u) m (iterReg (fun r => markOnline r u) n [])

/-- Result of one call to the push delivery API
(expo.sendPushNotificationsAsync): success, or a thrown error carrying an
optional numeric statusCode field. -/
inductive PushAttemptResult
  | success
  | failure (statusCode : Option Nat)
deriving DecidableEq, Repr

/-- Observable trace of one sendPushWithRetry run: how many delivery-API
calls were made, the wait durations performed between them in order, and
whether a call succeeded. -/
structure PushRun where
  attempts : Nat
  delays : List Nat
  succeeded : Bool
deriving DecidableEq, Repr

/-- The retry loop of sendPushWithRetry, lines 72-88: for attempt = 0..4,
call the API; on success return; on a failure with statusCode 429 while
attempt < 4, wait for the current delay, double it and continue; on any
other failure return. The api argument gives the outcome of the nth call;
fuel is 5 - attempt and makes the recursion structural. -/
def pushLoop (api : Nat → PushAttemptResult) : Nat → Nat → Nat → PushRun
  | _, _, 0 => ⟨0, [], false⟩
  | attempt, delay, fuel + 1 =>
    match api attempt with
    | .success => ⟨1, [], true⟩
    | .failure sc =>
      if sc = some 429 ∧ attempt < 4 then
        let rest := pushLoop api (attempt + 1) (delay * 2) fuel
        ⟨rest.attempts + 1, delay :: rest.delays, rest.succeeded⟩
      else ⟨1, [], false⟩

/-- The notification record built at lines 66-70: to the token, with the
fixed title and the message content as body (undefined body allowed, since
the handler passes messageContent through unchecked). -/
structure PushMessage where
  to_ : String
  title : String
  body : Option String
deriving DecidableEq, Repr

/-- Environment of sendPushWithRetry: the token-format validity check
Expo.isExpoPushToken and the delivery API, both external collaborators.
The api field gives the outcome of the nth call for a given message. -/
structure PushEnv where
  isExpoPushToken : String → Bool
  api : PushMessage → Nat → PushAttemptResult

/-- sendPushWithRetry, lines 60-89: if the token fails the Expo validity
check, return with no attempt; otherwise build the message and run the
retry loop on it starting at attempt 0 with initial delay 1000. -/
def sendPushWithRetry (env : PushEnv) (token : String) (content : Option String) : PushRun :=
  if env.isExpoPushToken token then
    let message : PushMessage := ⟨token, "New message", content⟩
    pushLoop (env.api message) 0 1000 5
  else ⟨0, [], false⟩

/-- Expected backoff sequence: n delays starting at d and doubling. -/
def expectedDelays : Nat → Nat → List Nat
  | _, 0 => []
  | d, n + 1 => d :: expectedDelays (d * 2) n

/-- Fake delivery API of the spec scenario: rate-limit failures on calls
0..3, success on call 4. -/
def rateLimitUntilFifth : PushMessage → Nat → PushAttemptResult :=
  fun _ attempt => if attempt < 4 then .failure (some 429) else .success

/-- Fake delivery API of the spec scenario: a non-rate-limit failure on the
first call. -/
def hardFailureFirst : PushMessage → Nat → PushAttemptResult :=
  fun _ _ => .failure (some 500)

/-- One record of the token-directory response: the expoPushToken field
may be absent (and may be the empty string, which JS treats as falsy). -/
structure TokenRecord where
  expoPushToken : Option String
deriving DecidableEq, Repr

/-- The parsed JSON body returned by the token directory: the items field
may be absent (data.items is then undefined). -/
structure TokenResponseBody where
  items : Option (List TokenRecord)
deriving DecidableEq, Repr

/-- Outcome of the fetch call at line 47 against the token directory:
either fetch itself throws (network error), or a response arrives with a
numeric status and a body; body none means res.json() throws on a
malformed body. -/
inductive FetchOutcome
  | throws
  | response (status : Nat) (body : Option TokenResponseBody)
deriving DecidableEq, Repr

/-- res.ok of the fetch API: status in the range 200-299. -/
def statusOk (status : Nat) : Bool :=
  200 ≤ status && status < 300

/-- The filter(Boolean) step applied to t.expoPushToken values: an absent
field and an empty string are dropped; other strings are kept. -/
def keepToken : Option String → Option String
  | none => none
  | some s => if s = "" then none else some s

/-- Body of the try block of getPushTokens, lines 47-53: a thrown fetch or
a thrown res.json() is an error; a non-ok response returns the empty list;
otherwise data.items?.map(t => t.expoPushToken).filter(Boolean) || [] is
computed (an absent items field makes the optional chain undefined, which
the || turns into the empty list). -/
def fetchTokensBody (o : FetchOutcome) : Except Unit (List String) :=
  match o with
  | .throws => .error ()
  | .response status body =>
    if statusOk status then
      match body with
      | none => .error ()
      | some data =>
        match data.items with
        | none => .ok []
        | some records => .ok ((records.map (fun t => t.expoPushToken)).filterMap keepToken)
    else .ok []

/-- getPushTokens, lines 44-58: the catch clause absorbs every thrown error
into the empty list. -/
def getPushTokens (o : FetchOutcome) : List String :=
  match fetchTokensBody o with
  | .error _ => []
  | .ok l => l

/-- The populated push-address fields of a token-directory response, in
response order: the spec wording for what a successful resolution
returns. -/
def populatedAddresses (records : List TokenRecord) : List String :=
  (records.filter (fun t => truthy t.expoPushToken)).map (fun t => t.expoPushToken.getD "")

/-- An inbound event payload: a JS object whose fields may each be absent.
The extra field carries the opaque passthrough fields, so that the payload
is emitted verbatim. -/
structure Payload where
  senderId : Option String := none
  recipientId : Option String := none
  messageContent : Option String := none
  groupChatId : Option String := none
  messageId : Option String := none
  readerId : Option String := none
  extra : List (String × String) := []
deriving DecidableEq, Repr

/-- The JS error a handler can raise: destructuring a missing payload
(undefined or null) throws a TypeError. -/
inductive JsError
  | typeError
deriving DecidableEq, Repr

/-- One observable step of a handler, recorded in program order:
an io.to(room).emit(event, payload) multicast, a read of the presence
registry, a getPushTokens call, or a sendPushWithRetry invocation. -/
inductive Action
  | emitToRoom (room : String) (event : String) (payload : Payload)
  | queryPresence (userId : String)
  | fetchTokens (userId : String)
  | pushSend (token : String) (body : Option String)
deriving DecidableEq, Repr

/-- The sendDirectMessage handler, lines 114-131: destructure the payload
(TypeError when it is missing); when recipientId is truthy, emit the
payload unmodified to room user:recipientId as newDirectMessage, read the
presence count, and when it is 0 resolve the tokens for the recipient and
invoke the push sender once per token with the message content. -/
def sendDirectMessage (r : Registry) (fetchEnv : String → FetchOutcome)
    (payload? : Option Payload) : Except JsError (List Action) :=
  match payload? with
  | none => .error .typeError
  | some p =>
    match p.recipientId with
    | none => .ok []
    | some rid =>
      if rid = "" then .ok []
      else
        let emitA := Action.emitToRoom ("user:" ++ rid) "newDirectMessage" p
        if jsOr (lookupCount r rid) 0 = 0 then
          let tokens := getPushTokens (fetchEnv rid)
          .ok (emitA :: .queryPresence rid :: .fetchTokens rid ::
            tokens.map (fun t => .pushSend t p.messageContent))
        else .ok [emitA, .queryPresence rid]

/-- The sendGroupMessage handler, lines 134-140: when groupChatId is
truthy, emit the payload unmodified to room group:groupChatId as
newGroupMessage; no presence read, no push. -/
def sendGroupMessage (payload? : Option Payload) : Except JsError (List Action) :=
  match payload? with
  | none => .error .typeError
  | some p =>
    match p.groupChatId with
    | none => .ok []
    | some gid =>
      if gid = "" then .ok []
      else .ok [.emitToRoom ("group:" ++ gid) "newGroupMessage" p]

/-- The directMessageRead handler, lines 143-149: when senderId is truthy,
emit the payload unmodified to room user:senderId as directMessageRead. -/
def directMessageRead (payload? : Option Payload) : Except JsError (List Action) :=
  match payload? with
  | none => .error .typeError
  | some p =>
    match p.senderId with
    | none => .ok []
    | some sid =>
      if sid = "" then .ok []
      else .ok [.emitToRoom ("user:" ++ sid) "directMessageRead" p]

/-- The joinGroup handler, lines 152-157: destructure groupChatId from the
payload (TypeError when it is missing); when truthy, add room
group:groupChatId to the rooms of the socket, else leave them unchanged. -/
def joinGroup (rooms : List String) (payload? : Option Payload) :
    Except JsError (List String) :=
  match payload? with
  | none => .error .typeError
  | some p =>
    match p.groupChatId with
    | none => .ok rooms
    | some gid =>
      if gid = "" then .ok rooms
      else .ok (("group:" ++ gid) :: rooms)

/-- The inbound events of the server: a transport connect carrying the
optional handshake userId, a transport disconnect for a session with that
userId, and the four routed socket events. -/
inductive Event
  | connect (userId : Option String)
  | disconnect (userId : Option String)
  | sendDirectMessage (payload : Option Payload)
  | sendGroupMessage (payload : Option Payload)
  | directMessageRead (payload : Option Payload)
  | joinGroup (payload : Option Payload)

/-- The presence registry after one inbound event. The connection handler
(line 95) increments only for a truthy handshake userId; the disconnect
handler (lines 102-110) is installed only in that same branch and
decrements; none of the four routed event handlers writes to
activeSockets, so they leave the registry unchanged. -/
def registryAfter (e : Event) (r : Registry) : Registry :=
  match e with
  | .connect u => if truthy u then markOnline r (u.getD "") else r
  | .disconnect u => if truthy u then markOffline r (u.getD "") else r
  | .sendDirectMessage _ => r
  | .sendGroupMessage _ => r
  | .directMessageRead _ => r
  | .joinGroup _ => r

/-- The multicasts contained in a handler trace, in order. -/
def emitsOf (acts : List Action) : List (String × String × Payload) :=
  acts.filterMap (fun a =>
    match a with
    | .emitToRoom room event p => some (room, event, p)
    | _ => none)

/-- The push-sender invocations contained in a handler trace, in order. -/
def pushSendsOf (acts : List Action) : List (String × Option String) :=
  acts.filterMap (fun a =>
    match a with
    | .pushSend t b => some (t, b)
    | _ => none)

/-- The getPushTokens calls contained in a handler trace, in order. -/
def tokenFetchesOf (acts : List Action) : List String :=
  acts.filterMap (fun a =>
    match a with
    | .fetchTokens u => some u
    | _ => none)

/-- Fixture: a fetch environment in which every token-directory call
throws. -/
def fetchEnvThrows : String → FetchOutcome := fun _ => .throws

/-- Fixture: a fetch environment returning a successful response with two
distinct registered tokens. -/
def fetchEnvTwo : String → FetchOutcome :=
  fun _ => .response 200 (some ⟨some [⟨some "a"⟩, ⟨some "b"⟩]⟩)

/-- Fixture: a direct-message payload addressed to user B. -/
def payloadB : Payload :=
  { senderId := some "A", recipientId := some "B", messageContent := some "hi" }

theorem lookupCount_singleton (u : String) (c : Nat) :
    lookupCount [(u, c)] u = some c := by
  simp [lookupCount]

theorem jsOr_some_zero (c : Nat) : jsOr (some c) 0 = c := by
  cases c <;> rfl

theorem markOnline_singleton (u : String) (c : Nat) :
    markOnline [(u, c)] u = [(u, c + 1)] := by
  simp [markOnline, lookupCount, jsOr_some_zero, setEntry]

theorem markOnline_nil (u : String) : markOnline [] u = [(u, 1)] := by
  simp [markOnline, lookupCount, jsOr, setEntry]

theorem iterReg_markOnline_singleton (u : String) :
    ∀ n c, iterReg (fun r => markOnline r u) n [(u, c)] = [(u, c + n)] := by
  intro n
  induction n with
  | zero => intro c; rfl
  | succ k ih =>
    intro c
    show iterReg (fun r => markOnline r u) k (markOnline [(u, c)] u) = _
    rw [markOnline_singleton, ih (c + 1)]
    ring_nf

theorem iterReg_markOnline_nil (u : String) (n : Nat) :
    iterReg (fun r => markOnline r u) n [] =
      if n = 0 then [] else [(u, n)] := by
  cases n with
  | zero => rfl
  | succ k =>
    show iterReg (fun r => markOnline r u) k (markOnline [] u) = _
    rw [markOnline_nil, iterReg_markOnline_singleton]
    simp [Nat.add_comm]

theorem markOffline_nil (u : String) : markOffline [] u = [] := by
  simp [markOffline, lookupCount, jsOr, removeEntry]

theorem iterReg_markOffline_nil (u : String) (m : Nat) :
    iterReg (fun r => markOffline r u) m [] = [] := by
  induction m with
  | zero => rfl
  | succ k ih =>
    show iterReg (fun r => markOffline r u) k (markOffline [] u) = _
    rw [markOffline_nil, ih]

theorem markOffline_singleton (u : String) (c : Nat) (hc : 0 < c) :
    markOffline [(u, c)] u = if c = 1 then [] else [(u, c - 1)] := by
  obtain ⟨d, rfl⟩ : ∃ d, c = d + 1 := ⟨c - 1, by omega⟩
  simp only [markOffline, lookupCount_singleton]
  cases d with
  | zero => simp [jsOr, removeEntry]
  | succ e => simp [jsOr, setEntry]

theorem iterReg_markOffline_singleton (u : String) :
    ∀ m c, 0 < c →
      iterReg (fun r => markOffline r u) m [(u, c)] =
        if m < c then [(u, c - m)] else [] := by
  intro m
  induction m with
  | zero => intro c hc; simp [iterReg, hc]
  | succ k ih =>
    intro c hc
    show iterReg (fun r => markOffline r u) k (markOffline [(u, c)] u) = _
    rw [markOffline_singleton u c hc]
    by_cases h1 : c = 1
    · subst h1
      rw [if_pos rfl, iterReg_markOffline_nil]
      simp
    · rw [if_neg h1, ih (c - 1) (by omega)]
      by_cases h2 : k < c - 1
      · rw [if_pos h2, if_pos (by omega)]
        have he : c - 1 - k = c - (k + 1) := by omega
        rw [he]
      · rw [if_neg h2, if_neg (by omega)]

theorem pushLoop_attempts_le (api : Nat → PushAttemptResult) :
    ∀ fuel attempt delay, (pushLoop api attempt delay fuel).attempts ≤ fuel := by
  intro fuel
  induction fuel with
  | zero => intro attempt delay; simp [pushLoop]
  | succ k ih =>
    intro attempt delay
    simp only [pushLoop]
    cases api attempt with
    | success => simp
    | failure sc =>
      by_cases h : sc = some 429 ∧ attempt < 4
      · simp only [if_pos h]
        have := ih (attempt + 1) (delay * 2)
        omega
      · simp [if_neg h]

theorem pushLoop_attempts_pos (api : Nat → PushAttemptResult)
    (fuel attempt delay : Nat) (hf : 0 < fuel) :
    0 < (pushLoop api attempt delay fuel).attempts := by
  obtain ⟨k, rfl⟩ : ∃ k, fuel = k + 1 := ⟨fuel - 1, by omega⟩
  simp only [pushLoop]
  cases api attempt with
  | success => simp
  | failure sc =>
    by_cases h : sc = some 429 ∧ attempt < 4
    · simp [if_pos h]
    · simp [if_neg h]

theorem pushLoop_delays (api : Nat → PushAttemptResult) :
    ∀ fuel attempt delay, 5 ≤ attempt + fuel →
      (pushLoop api attempt delay fuel).delays =
        expectedDelays delay ((pushLoop api attempt delay fuel).attempts - 1) := by
  intro fuel
  induction fuel with
  | zero => intro attempt delay _; simp [pushLoop, expectedDelays]
  | succ k ih =>
    intro attempt delay hle
    simp only [pushLoop]
    cases api attempt with
    | success => simp [expectedDelays]
    | failure sc =>
      by_cases h : sc = some 429 ∧ attempt < 4
      · simp only [if_pos h]
        have hk : 0 < k := by omega
        have hpos := pushLoop_attempts_pos api k (attempt + 1) (delay * 2) hk
        have hrec := ih (attempt + 1) (delay * 2) (by omega)
        obtain ⟨a, ha⟩ : ∃ a, (pushLoop api (attempt + 1) (delay * 2) k).attempts
            = a + 1 := ⟨(pushLoop api (attempt + 1) (delay * 2) k).attempts - 1, by omega⟩
        simp only [ha, Nat.add_sub_cancel] at hrec ⊢
        simp only [expectedDelays]
        rw [hrec]
      · simp [if_neg h, expectedDelays]

theorem truthy_some_eq_false {s : String} (h : truthy (some s) = false) : s = "" := by
  by_cases hs : s = ""
  · exact hs
  · simp [truthy, hs] at h

theorem isOnline_true_iff (r : Registry) (u : String) :
    isOnline r u = true ↔ jsOr (lookupCount r u) 0 ≠ 0 := by
  simp [isOnline]

theorem isOnline_false_iff (r : Registry) (u : String) :
    isOnline r u = false ↔ jsOr (lookupCount r u) 0 = 0 := by
  rw [← Bool.not_eq_true, isOnline_true_iff]
  tauto

theorem lookupCount_mem (r : Registry) (u : String) (c : Nat)
    (h : lookupCount r u = some c) : (u, c) ∈ r := by
  induction r with
  | nil => simp [lookupCount] at h
  | cons kv rest ih =>
    obtain ⟨k, v⟩ := kv
    by_cases hk : k = u
    · subst hk
      simp [lookupCount] at h
      subst h
      exact List.mem_cons_self _ _
    · simp [lookupCount, hk] at h
      exact List.mem_cons_of_mem _ (ih h)

theorem goodRegistry_setEntry (r : Registry) (u : String) (c : Nat)
    (h : goodRegistry r) (hc : 0 < c) : goodRegistry (setEntry r u c) := by
  induction r with
  | nil =>
    intro kv hkv
    simp [setEntry] at hkv
    subst hkv
    exact hc
  | cons kv rest ih =>
    obtain ⟨k, v⟩ := kv
    have hrest : goodRegistry rest := fun x hx => h x (List.mem_cons_of_mem _ hx)
    by_cases hk : k = u
    · intro x hx
      simp [setEntry, hk] at hx
      rcases hx with hx | hx
      · subst hx; exact hc
      · exact hrest x hx
    · intro x hx
      simp [setEntry, hk] at hx
      rcases hx with hx | hx
      · subst hx
        exact h (k, v) (List.mem_cons_self _ _)
      · exact ih hrest x hx

theorem goodRegistry_removeEntry (r : Registry) (u : String)
    (h : goodRegistry r) : goodRegistry (removeEntry r u) := by
  induction r with
  | nil => intro x hx; simp [removeEntry] at hx
  | cons kv rest ih =>
    obtain ⟨k, v⟩ := kv
    have hrest : goodRegistry rest := fun x hx => h x (List.mem_cons_of_mem _ hx)
    by_cases hk : k = u
    · simpa [removeEntry, hk] using ih hrest
    · intro x hx
      simp [removeEntry, hk] at hx
      rcases hx with hx | hx
      · subst hx
        exact h (k, v) (List.mem_cons_self _ _)
      · exact ih hrest x hx

theorem goodRegistry_markOnline (r : Registry) (u : String)
    (h : goodRegistry r) : goodRegistry (markOnline r u) :=
  goodRegistry_setEntry r u _ h (Nat.succ_pos _)

theorem goodRegistry_markOffline (r : Registry) (u : String)
    (h : goodRegistry r) : goodRegistry (markOffline r u) := by
  unfold markOffline
  by_cases hc : jsOr (lookupCount r u) 1 - 1 = 0
  · simpa [hc] using goodRegistry_removeEntry r u h
  · simpa [hc] using goodRegistry_setEntry r u _ h (by omega)

theorem pushSendsOf_map (ts : List String) (b : Option String) :
    pushSendsOf (ts.map (fun t => Action.pushSend t b)) = ts.map (fun t => (t, b)) := by
  induction ts with
  | nil => rfl
  | cons x xs ih => simp [pushSendsOf, List.filterMap_cons] at ih ⊢; exact ih

theorem emitsOf_map_pushSend (ts : List String) (b : Option String) :
    emitsOf (ts.map (fun t => Action.pushSend t b)) = [] := by
  induction ts with
  | nil => rfl
  | cons x xs ih => simp [emitsOf, List.filterMap_cons, ih]

theorem tokenFetchesOf_map_pushSend (ts : List String) (b : Option String) :
    tokenFetchesOf (ts.map (fun t => Action.pushSend t b)) = [] := by
  induction ts with
  | nil => rfl
  | cons x xs ih => simp [tokenFetchesOf, List.filterMap_cons, ih]

@[simp] theorem emitsOf_nil : emitsOf [] = [] := rfl

@[simp] theorem emitsOf_cons_emit (room event : String) (p : Payload) (acts : List Action) :
    emitsOf (Action.emitToRoom room event p :: acts) = (room, event, p) :: emitsOf acts := rfl

@[simp] theorem emitsOf_cons_query (u : String) (acts : List Action) :
    emitsOf (Action.queryPresence u :: acts) = emitsOf acts := rfl

@[simp] theorem emitsOf_cons_fetch (u : String) (acts : List Action) :
    emitsOf (Action.fetchTokens u :: acts) = emitsOf acts := rfl

@[simp] theorem emitsOf_cons_push (t : String) (b : Option String) (acts : List Action) :
    emitsOf (Action.pushSend t b :: acts) = emitsOf acts := rfl

@[simp] theorem pushSendsOf_nil : pushSendsOf [] = [] := rfl

@[simp] theorem pushSendsOf_cons_emit (room event : String) (p : Payload) (acts : List Action) :
    pushSendsOf (Action.emitToRoom room event p :: acts) = pushSendsOf acts := rfl

@[simp] theorem pushSendsOf_cons_query (u : String) (acts : List Action) :
    pushSendsOf (Action.queryPresence u :: acts) = pushSendsOf acts := rfl

@[simp] theorem pushSendsOf_cons_fetch (u : String) (acts : List Action) :
    pushSendsOf (Action.fetchTokens u :: acts) = pushSendsOf acts := rfl

@[simp] theorem pushSendsOf_cons_push (t : String) (b : Option String) (acts : List Action) :
    pushSendsOf (Action.pushSend t b :: acts) = (t, b) :: pushSendsOf acts := rfl

@[simp] theorem tokenFetchesOf_nil : tokenFetchesOf [] = [] := rfl

@[simp] theorem tokenFetchesOf_cons_emit (room event : String) (p : Payload) (acts : List Action) :
    tokenFetchesOf (Action.emitToRoom room event p :: acts) = tokenFetchesOf acts := rfl

@[simp] theorem tokenFetchesOf_cons_query (u : String) (acts : List Action) :
    tokenFetchesOf (Action.queryPresence u :: acts) = tokenFetchesOf acts := rfl

@[simp] theorem tokenFetchesOf_cons_fetch (u : String) (acts : List Action) :
    tokenFetchesOf (Action.fetchTokens u :: acts) = u :: tokenFetchesOf acts := rfl

@[simp] theorem tokenFetchesOf_cons_push (t : String) (b : Option String) (acts : List Action) :
    tokenFetchesOf (Action.pushSend t b :: acts) = tokenFetchesOf acts := rfl

theorem sendDirectMessage_drop (r : Registry) (fetchEnv : String → FetchOutcome)
    (p : Payload) (h : truthy p.recipientId = false) :
    sendDirectMessage r fetchEnv (some p) = .ok [] := by
  cases hr : p.recipientId with
  | none => simp [sendDirectMessage, hr]
  | some rid =>
    rw [hr] at h
    have he := truthy_some_eq_false h
    subst he
    simp [sendDirectMessage, hr]

theorem sendGroupMessage_drop (p : Payload) (h : truthy p.groupChatId = false) :
    sendGroupMessage (some p) = .ok [] := by
  cases hg : p.groupChatId with
  | none => simp [sendGroupMessage, hg]
  | some gid =>
    rw [hg] at h
    have he := truthy_some_eq_false h
    subst he
    simp [sendGroupMessage, hg]

theorem directMessageRead_drop (p : Payload) (h : truthy p.senderId = false) :
    directMessageRead (some p) = .ok [] := by
  cases hs : p.senderId with
  | none => simp [directMessageRead, hs]
  | some sid =>
    rw [hs] at h
    have he := truthy_some_eq_false h
    subst he
    simp [directMessageRead, hs]

theorem joinGroup_drop (rooms : List String) (p : Payload)
    (h : truthy p.groupChatId = false) : joinGroup rooms (some p) = .ok rooms := by
  cases hg : p.groupChatId with
  | none => simp [joinGroup, hg]
  | some gid =>
    rw [hg] at h
    have he := truthy_some_eq_false h
    subst he
    simp [joinGroup, hg]

theorem populatedAddresses_cons (t : TokenRecord) (ts : List TokenRecord) :
    populatedAddresses (t :: ts) =
      if truthy t.expoPushToken then t.expoPushToken.getD "" :: populatedAddresses ts
      else populatedAddresses ts := by
  unfold populatedAddresses
  rw [List.filter_cons]
  by_cases h : truthy t.expoPushToken <;> simp [h]

theorem filterMap_keepToken_eq (records : List TokenRecord) :
    (records.map (fun t => t.expoPushToken)).filterMap keepToken =
      populatedAddresses records := by
  induction records with
  | nil => rfl
  | cons t ts ih =>
    rw [List.map_cons, List.filterMap_cons, populatedAddresses_cons]
    cases ht : t.expoPushToken with
    | none => simp [keepToken, truthy, ih]
    | some s =>
      by_cases hs : s = ""
      · subst hs
        simp [keepToken, truthy, ih]
      · simp [keepToken, truthy, hs, ih]

theorem filterMap_keepToken_comp (records : List TokenRecord) :
    List.filterMap (keepToken ∘ fun t => t.expoPushToken) records =
      populatedAddresses records := by
  rw [← filterMap_keepToken_eq records, List.filterMap_map]

theorem filterMap_keepToken_replicate (k : Nat) (addr : String) (h : addr ≠ "") :
    ((List.replicate k (TokenRecord.mk (some addr))).map
      (fun t => t.expoPushToken)).filterMap keepToken = List.replicate k addr := by
  induction k with
  | zero => rfl
  | succ j ih =>
    rw [List.replicate_succ, List.map_cons, List.filterMap_cons]
    simp only [keepToken, if_neg h]
    rw [ih, List.replicate_succ]

/-- C1: a sendDirectMessage event with a non-empty recipientId produces
exactly one realtime multicast of the unmodified payload to the
user-channel of the recipient under newDirectMessage; push work happens
iff the recipient has zero live connections, and then the push sender is
invoked exactly once per resolved address, in order; with a live
connection there is no token fetch and no push invocation. -/
theorem sendDirectMessage_multicast_and_push (r : Registry)
    (fetchEnv : String → FetchOutcome) (p : Payload) (rid : String)
    (hrid : p.recipientId = some rid) (hne : rid ≠ "") :
    ∃ acts, sendDirectMessage r fetchEnv (some p) = .ok acts
      ∧ emitsOf acts = [("user:" ++ rid, "newDirectMessage", p)]
      ∧ (isOnline r rid = true → pushSendsOf acts = [] ∧ tokenFetchesOf acts = [])
      ∧ (isOnline r rid = false →
          pushSendsOf acts =
            (getPushTokens (fetchEnv rid)).map (fun t => (t, p.messageContent))
          ∧ tokenFetchesOf acts = [rid]) := by
  by_cases h0 : jsOr (lookupCount r rid) 0 = 0
  · refine ⟨Action.emitToRoom ("user:" ++ rid) "newDirectMessage" p ::
      Action.queryPresence rid :: Action.fetchTokens rid ::
      (getPushTokens (fetchEnv rid)).map (fun t => Action.pushSend t p.messageContent),
      ?_, ?_, ?_, ?_⟩
    · simp [sendDirectMessage, hrid, hne, h0]
    · simp [emitsOf_map_pushSend]
    · intro hon
      exact absurd h0 ((isOnline_true_iff r rid).mp hon)
    · intro _
      exact ⟨by simp [pushSendsOf_map], by simp [tokenFetchesOf_map_pushSend]⟩
  · refine ⟨[Action.emitToRoom ("user:" ++ rid) "newDirectMessage" p,
      Action.queryPresence rid], ?_, ?_, ?_, ?_⟩
    · simp [sendDirectMessage, hrid, hne, h0]
    · simp
    · intro _
      exact ⟨rfl, rfl⟩
    · intro hoff
      exact absurd ((isOnline_false_iff r rid).mp hoff) h0

/-- Witness for C1 at concrete inputs: recipient B offline with two
resolved addresses, and recipient B online with one live connection. -/
theorem sendDirectMessage_multicast_and_push_witness :
    (∃ acts, sendDirectMessage [] fetchEnvTwo (some payloadB) = .ok acts
      ∧ emitsOf acts = [("user:B", "newDirectMessage", payloadB)]
      ∧ (isOnline [] "B" = true → pushSendsOf acts = [] ∧ tokenFetchesOf acts = [])
      ∧ (isOnline [] "B" = false →
          pushSendsOf acts =
            (getPushTokens (fetchEnvTwo "B")).map (fun t => (t, payloadB.messageContent))
          ∧ tokenFetchesOf acts = ["B"]))
    ∧ (∃ acts, sendDirectMessage [("B", 1)] fetchEnvTwo (some payloadB) = .ok acts
      ∧ emitsOf acts = [("user:B", "newDirectMessage", payloadB)]
      ∧ (isOnline [("B", 1)] "B" = true → pushSendsOf acts = [] ∧ tokenFetchesOf acts = [])
      ∧ (isOnline [("B", 1)] "B" = false →
          pushSendsOf acts =
            (getPushTokens (fetchEnvTwo "B")).map (fun t => (t, payloadB.messageContent))
          ∧ tokenFetchesOf acts = ["B"])) :=
  ⟨sendDirectMessage_multicast_and_push [] fetchEnvTwo payloadB "B" rfl (by decide),
   sendDirectMessage_multicast_and_push [("B", 1)] fetchEnvTwo payloadB "B" rfl (by decide)⟩

/-- C2: with a valid push address the sender makes between 1 and 5
delivery-API attempts, the waits performed are exactly the doubling
sequence starting at 1000ms (one wait before each attempt after the
first), the 429-until-fifth scenario makes exactly 5 attempts with delays
1000, 2000, 4000, 8000 and succeeds, and a non-rate-limit failure on the
first attempt stops after exactly 1 attempt with no wait. -/
theorem sendPushWithRetry_backoff (env : PushEnv) (token : String)
    (content : Option String) (hvalid : env.isExpoPushToken token = true) :
    1 ≤ (sendPushWithRetry env token content).attempts
    ∧ (sendPushWithRetry env token content).attempts ≤ 5
    ∧ (sendPushWithRetry env token content).delays =
        expectedDelays 1000 ((sendPushWithRetry env token content).attempts - 1)
    ∧ sendPushWithRetry ⟨fun _ => true, rateLimitUntilFifth⟩ token content =
        ⟨5, [1000, 2000, 4000, 8000], true⟩
    ∧ sendPushWithRetry ⟨fun _ => true, hardFailureFirst⟩ token content =
        ⟨1, [], false⟩ := by
  simp only [sendPushWithRetry, hvalid, if_true]
  refine ⟨?_, ?_, ?_, rfl, rfl⟩
  · exact pushLoop_attempts_pos _ 5 0 1000 (by omega)
  · exact pushLoop_attempts_le _ 5 0 1000
  · exact pushLoop_delays _ 5 0 1000 (by omega)

/-- Witness for C2 at a concrete environment and token. -/
theorem sendPushWithRetry_backoff_witness :
    1 ≤ (sendPushWithRetry ⟨fun _ => true, rateLimitUntilFifth⟩ "tok" (some "hi")).attempts
    ∧ (sendPushWithRetry ⟨fun _ => true, rateLimitUntilFifth⟩ "tok" (some "hi")).attempts ≤ 5
    ∧ (sendPushWithRetry ⟨fun _ => true, rateLimitUntilFifth⟩ "tok" (some "hi")).delays =
        expectedDelays 1000
          ((sendPushWithRetry ⟨fun _ => true, rateLimitUntilFifth⟩ "tok" (some "hi")).attempts - 1)
    ∧ sendPushWithRetry ⟨fun _ => true, rateLimitUntilFifth⟩ "tok" (some "hi") =
        ⟨5, [1000, 2000, 4000, 8000], true⟩
    ∧ sendPushWithRetry ⟨fun _ => true, hardFailureFirst⟩ "tok" (some "hi") =
        ⟨1, [], false⟩ :=
  sendPushWithRetry_backoff ⟨fun _ => true, rateLimitUntilFifth⟩ "tok" (some "hi") rfl

/-- C3: starting from the empty registry, after N markOnline calls and M
markOffline calls for user u, the user is online exactly when N exceeds M,
and otherwise the entry is absent from the registry (not present with
count zero). -/
theorem presence_counting (n m : Nat) (u : String) :
    isOnline (runOnOff n m u) u = decide (m < n)
    ∧ lookupCount (runOnOff n m u) u = if m < n then some (n - m) else none := by
  unfold runOnOff
  rw [iterReg_markOnline_nil]
  by_cases hn : n = 0
  · subst hn
    rw [if_pos rfl, iterReg_markOffline_nil]
    simp [isOnline, lookupCount, jsOr]
  · rw [if_neg hn, iterReg_markOffline_singleton u m n (by omega)]
    by_cases hm : m < n
    · rw [if_pos hm, if_pos hm, lookupCount_singleton]
      constructor
      · rw [isOnline, lookupCount_singleton, jsOr_some_zero]
        simp only [decide_eq_true_eq] at *
        simp [hm]
        omega
      · rfl
    · rw [if_neg hm, if_neg hm]
      simp [isOnline, lookupCount, jsOr, hm]

/-- C4: the positive-count invariant of the presence registry is preserved
by every inbound event (connect and disconnect mutate it through
markOnline and markOffline; the four routed handlers never write to it),
and under it the membership test isOnline is equivalent to the presence of
an entry, while an absent entry and count zero coincide. -/
theorem registry_invariant (e : Event) (r : Registry) (u : String)
    (h : goodRegistry r) :
    goodRegistry (registryAfter e r)
    ∧ (isOnline r u = true ↔ lookupCount r u ≠ none)
    ∧ (lookupCount r u = none ↔ jsOr (lookupCount r u) 0 = 0) := by
  refine ⟨?_, ?_, ?_⟩
  · cases e with
    | connect v =>
      by_cases hv : truthy v
      · simpa [registryAfter, hv] using goodRegistry_markOnline r (v.getD "") h
      · simpa [registryAfter, hv] using h
    | disconnect v =>
      by_cases hv : truthy v
      · simpa [registryAfter, hv] using goodRegistry_markOffline r (v.getD "") h
      · simpa [registryAfter, hv] using h
    | sendDirectMessage q => exact h
    | sendGroupMessage q => exact h
    | directMessageRead q => exact h
    | joinGroup q => exact h
  · cases hl : lookupCount r u with
    | none => simp [isOnline, hl, jsOr]
    | some c =>
      have hc : 0 < c := h (u, c) (lookupCount_mem r u c hl)
      simp [isOnline, hl, jsOr_some_zero]
      omega
  · cases hl : lookupCount r u with
    | none => simp [jsOr]
    | some c =>
      have hc : 0 < c := h (u, c) (lookupCount_mem r u c hl)
      simp [jsOr_some_zero]
      omega

/-- Witness for C4 at a concrete event and registry. -/
theorem registry_invariant_witness :
    goodRegistry (registryAfter (.disconnect (some "u")) [("u", 2)])
    ∧ (isOnline [("u", 2)] "u" = true ↔ lookupCount [("u", 2)] "u" ≠ none)
    ∧ (lookupCount [("u", 2)] "u" = none ↔ jsOr (lookupCount [("u", 2)] "u") 0 = 0) :=
  registry_invariant (.disconnect (some "u")) [("u", 2)] "u" (by simp [goodRegistry])

/-- C5: for a sendDirectMessage with non-empty recipientId, the trace
starts with the realtime multicast, the presence read comes second, and
everything after them is push-fallback work (the token fetch or a push
invocation), so the multicast never waits on the push path. -/
theorem sendDirectMessage_multicast_first (r : Registry)
    (fetchEnv : String → FetchOutcome) (p : Payload) (rid : String)
    (hrid : p.recipientId = some rid) (hne : rid ≠ "") :
    ∃ rest, sendDirectMessage r fetchEnv (some p) =
        .ok (Action.emitToRoom ("user:" ++ rid) "newDirectMessage" p ::
          Action.queryPresence rid :: rest)
      ∧ ∀ a ∈ rest, a = Action.fetchTokens rid
          ∨ ∃ t, a = Action.pushSend t p.messageContent := by
  by_cases h0 : jsOr (lookupCount r rid) 0 = 0
  · refine ⟨Action.fetchTokens rid ::
      (getPushTokens (fetchEnv rid)).map (fun t => Action.pushSend t p.messageContent),
      ?_, ?_⟩
    · simp [sendDirectMessage, hrid, hne, h0]
    · intro a ha
      rcases List.mem_cons.mp ha with ha | ha
      · exact Or.inl ha
      · rcases List.mem_map.mp ha with ⟨t, _, rfl⟩
        exact Or.inr ⟨t, rfl⟩
  · refine ⟨[], ?_, ?_⟩
    · simp [sendDirectMessage, hrid, hne, h0]
    · intro a ha
      simp at ha

/-- Witness for C5 at a concrete offline recipient. -/
theorem sendDirectMessage_multicast_first_witness :
    ∃ rest, sendDirectMessage [] fetchEnvTwo (some payloadB) =
        .ok (Action.emitToRoom "user:B" "newDirectMessage" payloadB ::
          Action.queryPresence "B" :: rest)
      ∧ ∀ a ∈ rest, a = Action.fetchTokens "B"
          ∨ ∃ t, a = Action.pushSend t payloadB.messageContent :=
  sendDirectMessage_multicast_first [] fetchEnvTwo payloadB "B" rfl (by decide)

/-- C6: getPushTokens absorbs every failure of the token directory into
the empty list (thrown fetch, non-success status, malformed body, absent
items field) and never propagates an error; on success it returns exactly
the populated push-address fields of the response records, in order. -/
theorem getPushTokens_absorbs_failures :
    (∀ o e, fetchTokensBody o = .error e → getPushTokens o = [])
    ∧ getPushTokens .throws = []
    ∧ (∀ status body, statusOk status = false →
        getPushTokens (.response status body) = [])
    ∧ (∀ status, statusOk status = true → getPushTokens (.response status none) = [])
    ∧ (∀ status, statusOk status = true →
        getPushTokens (.response status (some ⟨none⟩)) = [])
    ∧ (∀ status records, statusOk status = true →
        getPushTokens (.response status (some ⟨some records⟩)) =
          populatedAddresses records) := by
  refine ⟨?_, rfl, ?_, ?_, ?_, ?_⟩
  · intro o e h
    simp [getPushTokens, h]
  · intro status body h
    simp [getPushTokens, fetchTokensBody, h]
  · intro status h
    simp [getPushTokens, fetchTokensBody, h]
  · intro status h
    simp [getPushTokens, fetchTokensBody, h]
  · intro status records h
    simp [getPushTokens, fetchTokensBody, h, filterMap_keepToken_eq, filterMap_keepToken_comp]

/-- Witness for C6 at concrete outcomes: a thrown fetch, an HTTP 500, a
malformed body, and a successful response with one populated and one
absent token field. -/
theorem getPushTokens_absorbs_failures_witness :
    getPushTokens .throws = []
    ∧ getPushTokens (.response 500 (some ⟨some [⟨some "a"⟩]⟩)) = []
    ∧ getPushTokens (.response 200 none) = []
    ∧ getPushTokens (.response 200 (some ⟨some [⟨some "a"⟩, ⟨none⟩]⟩)) =
        populatedAddresses [⟨some "a"⟩, ⟨none⟩] :=
  ⟨getPushTokens_absorbs_failures.1 .throws () rfl,
   getPushTokens_absorbs_failures.2.2.1 500 _ (by decide),
   getPushTokens_absorbs_failures.2.2.2.1 200 (by decide),
   getPushTokens_absorbs_failures.2.2.2.2.2 200 _ (by decide)⟩

/-- Counterexample to C7 as stated: an event delivered with a missing
payload is not silently dropped; the sendDirectMessage handler raises a
TypeError when destructuring it. -/
theorem missing_payload_not_dropped_cex :
    sendDirectMessage [] fetchEnvThrows none = .error .typeError
    ∧ sendDirectMessage [] fetchEnvThrows none ≠ .ok [] := by
  refine ⟨rfl, ?_⟩
  intro h
  exact Except.noConfusion h

/-- C7 as amended: for every inbound event whose payload is an object with
a missing or empty required routing key, the event is silently dropped:
the trace is empty (no outbound event, no external call, no presence
change) and joinGroup leaves the room memberships unchanged; no error is
raised. A missing payload instead raises a TypeError. -/
theorem handlers_drop_empty_routing_key :
    (∀ r fetchEnv p, truthy p.recipientId = false →
        sendDirectMessage r fetchEnv (some p) = .ok [])
    ∧ (∀ p, truthy p.groupChatId = false → sendGroupMessage (some p) = .ok [])
    ∧ (∀ p, truthy p.senderId = false → directMessageRead (some p) = .ok [])
    ∧ (∀ rooms p, truthy p.groupChatId = false →
        joinGroup rooms (some p) = .ok rooms) :=
  ⟨fun r fetchEnv p h => sendDirectMessage_drop r fetchEnv p h,
   fun p h => sendGroupMessage_drop p h,
   fun p h => directMessageRead_drop p h,
   fun rooms p h => joinGroup_drop rooms p h⟩

/-- Witness for the amended C7 at concrete payloads: an absent routing key
and an empty-string routing key. -/
theorem handlers_drop_empty_routing_key_witness :
    sendDirectMessage [] fetchEnvThrows (some {}) = .ok []
    ∧ sendGroupMessage (some { groupChatId := some "" }) = .ok []
    ∧ directMessageRead (some {}) = .ok []
    ∧ joinGroup ["group:g"] (some { groupChatId := some "" }) = .ok ["group:g"] :=
  ⟨handlers_drop_empty_routing_key.1 [] fetchEnvThrows {} rfl,
   handlers_drop_empty_routing_key.2.1 { groupChatId := some "" } (by decide),
   handlers_drop_empty_routing_key.2.2.1 {} rfl,
   handlers_drop_empty_routing_key.2.2.2 ["group:g"] { groupChatId := some "" } (by decide)⟩

/-- C8: an address that fails the Expo token-format validity check makes
the push sender return immediately: zero delivery-API attempts, no waits,
no error. -/
theorem sendPushWithRetry_invalid_token (env : PushEnv) (token : String)
    (content : Option String) (h : env.isExpoPushToken token = false) :
    sendPushWithRetry env token content = ⟨0, [], false⟩ := by
  simp [sendPushWithRetry, h]

/-- Witness for C8 at a concrete environment rejecting every token. -/
theorem sendPushWithRetry_invalid_token_witness :
    sendPushWithRetry ⟨fun _ => false, rateLimitUntilFifth⟩ "bad" (some "hi") =
      ⟨0, [], false⟩ :=
  sendPushWithRetry_invalid_token ⟨fun _ => false, rateLimitUntilFifth⟩ "bad" (some "hi") rfl

/-- C9: every handler destructures its payload, so an event delivered with
no payload at all raises a TypeError instead of being silently dropped;
the silent drop applies only to payloads that are objects with a missing
or empty routing key. -/
theorem handlers_throw_on_missing_payload :
    (∀ r fetchEnv, sendDirectMessage r fetchEnv none = .error .typeError)
    ∧ sendGroupMessage none = .error .typeError
    ∧ directMessageRead none = .error .typeError
    ∧ (∀ rooms, joinGroup rooms none = .error .typeError)
    ∧ (∀ r fetchEnv p, truthy p.recipientId = false →
        sendDirectMessage r fetchEnv (some p) = .ok []) :=
  ⟨fun _ _ => rfl, rfl, rfl, fun _ => rfl,
   fun r fetchEnv p h => sendDirectMessage_drop r fetchEnv p h⟩

/-- Witness for C9 at concrete inputs. -/
theorem handlers_throw_on_missing_payload_witness :
    sendDirectMessage [("u", 1)] fetchEnvTwo none = .error .typeError
    ∧ joinGroup ["group:g"] none = .error .typeError
    ∧ sendDirectMessage [("u", 1)] fetchEnvTwo (some { recipientId := some "" }) = .ok [] :=
  ⟨handlers_throw_on_missing_payload.1 [("u", 1)] fetchEnvTwo,
   handlers_throw_on_missing_payload.2.2.2.1 ["group:g"],
   handlers_throw_on_missing_payload.2.2.2.2 [("u", 1)] fetchEnvTwo
     { recipientId := some "" } (by decide)⟩

/-- C10: the token resolver preserves order and multiplicity of the
directory response (the populated push-address fields in response order,
duplicates retained), so a directory response listing the same address k
times makes getPushTokens return k copies and makes the router invoke the
push sender k times with that address. -/
theorem token_multiplicity_fanout (r : Registry)
    (fetchEnv : String → FetchOutcome) (p : Payload) (rid addr : String)
    (k status : Nat) (hrid : p.recipientId = some rid) (hne : rid ≠ "")
    (hoff : isOnline r rid = false) (hstatus : statusOk status = true)
    (henv : fetchEnv rid = .response status
      (some ⟨some (List.replicate k ⟨some addr⟩)⟩))
    (haddr : addr ≠ "") :
    (∀ records, getPushTokens (.response status (some ⟨some records⟩)) =
        populatedAddresses records)
    ∧ getPushTokens (fetchEnv rid) = List.replicate k addr
    ∧ ∃ acts, sendDirectMessage r fetchEnv (some p) = .ok acts
        ∧ pushSendsOf acts = List.replicate k (addr, p.messageContent) := by
  have hget : ∀ records, getPushTokens (.response status (some ⟨some records⟩)) =
      populatedAddresses records := by
    intro records
    simp [getPushTokens, fetchTokensBody, hstatus, filterMap_keepToken_eq,
      filterMap_keepToken_comp]
  have htoks : getPushTokens (fetchEnv rid) = List.replicate k addr := by
    rw [henv]
    show (match fetchTokensBody _ with | .error _ => [] | .ok l => l) = _
    simp only [fetchTokensBody, hstatus, if_true]
    exact filterMap_keepToken_replicate k addr haddr
  have h0 : jsOr (lookupCount r rid) 0 = 0 := (isOnline_false_iff r rid).mp hoff
  refine ⟨hget, htoks, ?_⟩
  refine ⟨Action.emitToRoom ("user:" ++ rid) "newDirectMessage" p ::
    Action.queryPresence rid :: Action.fetchTokens rid ::
    (getPushTokens (fetchEnv rid)).map (fun t => Action.pushSend t p.messageContent),
    ?_, ?_⟩
  · simp [sendDirectMessage, hrid, hne, h0]
  · rw [pushSendsOf_cons_emit, pushSendsOf_cons_query, pushSendsOf_cons_fetch,
      pushSendsOf_map, htoks, List.map_replicate]

/-- Witness for C10: user B offline, the directory lists address a three
times, and the push sender is invoked three times with a. -/
theorem token_multiplicity_fanout_witness :
    (∀ records, getPushTokens (.response 200 (some ⟨some records⟩)) =
        populatedAddresses records)
    ∧ getPushTokens ((fun _ => FetchOutcome.response 200
        (some ⟨some (List.replicate 3 ⟨some "a"⟩)⟩)) "B") = List.replicate 3 "a"
    ∧ ∃ acts, sendDirectMessage []
        (fun _ => FetchOutcome.response 200 (some ⟨some (List.replicate 3 ⟨some "a"⟩)⟩))
        (some payloadB) = .ok acts
        ∧ pushSendsOf acts = List.replicate 3 ("a", payloadB.messageContent) :=
  token_multiplicity_fanout []
    (fun _ => FetchOutcome.response 200 (some ⟨some (List.replicate 3 ⟨some "a"⟩)⟩))
    payloadB "B" "a" 3 200 rfl (by decide) (by decide) (by decide) rfl (by decide)

end SOPSC
